import Mathlib

/-!
# Verification of `package_extension.py`

A shallow embedding of the extension-packaging script
`src/package_extension.py` of the repository
`Istiaq-Edu/bookmark-folder-organizer`, together with theorems settling
the specification claims about it.

The script is a single linear pipeline:
`main` validates that the source directory and the manifest exist, then
calls `create_xpi`, which reads a `version` string from `manifest.json`
(default `"1.0.0"`), builds the output filename
`bookmark-folder-organizer-<version>.xpi`, walks the source tree, filters
every file path through `should_include` (exclude-pattern substring or
star-stripped-suffix match), and writes the surviving files into a ZIP
archive under their source-relative names.

Modelling decisions:
* Strings are Lean `String`s; Python's substring test `pattern in path`
  and `path.endswith(s)` are embedded as executable functions on
  `List Char` (`listContains`, `listEndsWith`), with lemmas connecting
  them to the mathematical notions `∃ l r, hay = l ++ pat ++ r` and
  `∃ l, hay = l ++ pat`.
* Python's `pattern.replace('*', '')` removes every `'*'`, which is
  exactly a character filter (`stripStars`).
* The filesystem is abstracted by a `World`: whether the source
  directory and the manifest file exist, the result of parsing the
  manifest (an association list of string fields, or a parse error), the
  list of file paths produced by the directory walk (relative to the
  source root, so that the absolute path is `SOURCE_DIR ++ "/" ++ rel`
  and the archive entry name is `rel`, exactly as
  `os.path.join`/`os.path.relpath` relate them), and the current
  timestamp string.
* `json.load(f).get('version', '1.0.0')` becomes `manifestVersion` over
  the parsed association list; an unparsable manifest is an
  `Except.error` carried by the `World`.
-/

namespace PackageExtension

/-- `SOURCE_DIR = "bookmark-folder-organizer"` from the script's configuration block. -/
def SOURCE_DIR : String := "bookmark-folder-organizer"

/-- `OUTPUT_DIR = "dist"` from the script's configuration block. -/
def OUTPUT_DIR : String := "dist"

/-- `EXTENSION_NAME = "bookmark-folder-organizer"` from the script's configuration block. -/
def EXTENSION_NAME : String := "bookmark-folder-organizer"

/-- The `INCLUDE_PATTERNS` list of the script.  It is declared in the
source but never consulted by any function. -/
def INCLUDE_PATTERNS : List String :=
  ["manifest.json", "popup.html", "popup.css", "popup.js", "README.md",
   "services/*.js", "icons/*.png"]

/-- The `EXCLUDE_PATTERNS` list of the script. -/
def EXCLUDE_PATTERNS : List String :=
  ["*.test.js", "*.test.md", ".gitkeep", "node_modules", ".git",
   ".DS_Store", "Thumbs.db"]

/-- `listStartsWith hay pat` holds when `pat` is an initial segment of
`hay` (character lists).  Executable primitive underlying the substring
and suffix tests. -/
def listStartsWith : List Char → List Char → Bool
  | _, [] => true
  | [], _ :: _ => false
  | h :: hs, p :: ps => h == p && listStartsWith hs ps

/-- `listContains hay pat` embeds Python's substring test
`pat in hay`: `pat` occurs contiguously somewhere in `hay`. -/
def listContains : List Char → List Char → Bool
  | [], pat => listStartsWith [] pat
  | h :: hs, pat => listStartsWith (h :: hs) pat || listContains hs pat

/-- `listEndsWith hay pat` embeds Python's `hay.endswith(pat)`. -/
def listEndsWith (hay pat : List Char) : Bool :=
  listStartsWith hay.reverse pat.reverse

/-- Substring test on strings (`pattern in file_path` in the script). -/
def strContains (hay pat : String) : Bool :=
  listContains hay.data pat.data

/-- Suffix test on strings (`file_path.endswith(...)` in the script). -/
def strEndsWith (hay pat : String) : Bool :=
  listEndsWith hay.data pat.data

/-- `pattern.replace('*', '')`: removing every occurrence of `'*'` is
the character filter keeping the non-star characters. -/
def stripStars (p : String) : String :=
  ⟨p.data.filter (fun c => c != '*')⟩

/-- The test the loop body of `should_include` applies to one exclude
pattern: `pattern in file_path or file_path.endswith(pattern.replace('*', ''))`. -/
def patternHits (pattern file_path : String) : Bool :=
  strContains file_path pattern || strEndsWith file_path (stripStars pattern)

/-- `should_include` generalised over the exclude list it loops over;
the loop with its early `return False` is the negation of `List.any`. -/
def shouldIncludeCore (excludes : List String) (file_path : String) : Bool :=
  !(excludes.any fun pattern => patternHits pattern file_path)

/-- `should_include(file_path)` from the script: `False` as soon as some
pattern of `EXCLUDE_PATTERNS` hits, `True` otherwise.  The declared
`INCLUDE_PATTERNS` list plays no part. -/
def should_include (file_path : String) : Bool :=
  shouldIncludeCore EXCLUDE_PATTERNS file_path

example : should_include "bookmark-folder-organizer/manifest.json" = true := by decide
example : should_include "bookmark-folder-organizer/popup.js" = true := by decide
example : should_include "bookmark-folder-organizer/popup.test.js" = false := by decide
example : should_include "bookmark-folder-organizer/.DS_Store" = false := by decide
example : stripStars "*.test.js" = ".test.js" := by decide

/-- A parsed manifest: the JSON object's string fields as an association
list (`json.load` result, consulted only through `.get('version', ...)`). -/
abbrev Manifest := List (String × String)

/-- `manifest.get('version', '1.0.0')`: the `version` field if present,
the default `"1.0.0"` otherwise. -/
def manifestVersion (manifest : Manifest) : String :=
  match manifest.lookup "version" with
  | some v => v
  | none => "1.0.0"

/-- `os.path.join(root, file)` for a walk entry: the walk is represented
by source-relative paths `rel`, so the absolute path is
`SOURCE_DIR ++ "/" ++ rel` and `os.path.relpath(file_path, SOURCE_DIR)`
gives back `rel` as the archive entry name. -/
def filePathOf (rel : String) : String := SOURCE_DIR ++ "/" ++ rel

/-- The archive entries the walk-and-filter loop of `create_xpi` writes:
the walk entries whose absolute path passes `should_include`, under
their source-relative names. -/
def packagedEntries (walk : List String) : List String :=
  walk.filter fun rel => should_include (filePathOf rel)

/-- The observable outcome of `create_xpi`: archive filename, internal
entry names in walk order, and the reported included-file count. -/
structure PackageResult where
  outputName : String
  entries : List String
  fileCount : Nat
deriving Repr, DecidableEq

/-- `f"{EXTENSION_NAME}-{version}.xpi"`. -/
def output_filename (version : String) : String :=
  EXTENSION_NAME ++ "-" ++ version ++ ".xpi"

/-- `os.path.join(OUTPUT_DIR, output_filename)`. -/
def output_path (filename : String) : String :=
  OUTPUT_DIR ++ "/" ++ filename

/-- `create_xpi` after the manifest has been read: `now` is the
`datetime.now().strftime(...)` timestamp, bound in the script but never
used afterwards; the filename is built from the fixed name and the
manifest version only, and the zip loop adds exactly the
`packagedEntries`, counting them in `file_count`. -/
def create_xpi (manifest : Manifest) (walk : List String) (now : String) :
    PackageResult :=
  let version := manifestVersion manifest
  let _timestamp := now
  { outputName := output_filename version
    entries := packagedEntries walk
    fileCount := (packagedEntries walk).length }

/-- The filesystem facts one run of the script observes: existence of
the source directory and of `manifest.json` inside it, the result of
parsing the manifest, the walk of the source tree (source-relative
paths), and the formatted current time. -/
structure World where
  sourceDirExists : Bool
  manifestFileExists : Bool
  manifestParse : Except String Manifest
  walk : List String
  now : String

/-- How one run of `main` ends: one of the two precondition errors, the
caught generic packaging error with its message, or success. -/
inductive RunResult where
  | errSourceMissing : RunResult
  | errManifestMissing : RunResult
  | errPackaging : String → RunResult
  | success : PackageResult → RunResult
deriving Repr, DecidableEq

/-- `main()`: return early with an error if the source directory or the
manifest file is missing; otherwise run `create_xpi` inside
`try/except`, where an unparsable manifest surfaces as the caught
generic failure with the underlying message. -/
def main (w : World) : RunResult :=
  if !w.sourceDirExists then .errSourceMissing
  else if !w.manifestFileExists then .errManifestMissing
  else
    match w.manifestParse with
    | .error e => .errPackaging e
    | .ok m => .success (create_xpi m w.walk w.now)

/-- Whether the run wrote the output archive file to disk.  The script
creates the file when `zipfile.ZipFile(output_path, 'w', ...)` opens it,
which happens only after both existence checks pass and `json.load`
succeeds (the manifest is read before the archive is opened). -/
def archiveCreated (w : World) : Bool :=
  w.sourceDirExists && w.manifestFileExists &&
    (match w.manifestParse with
     | .ok _ => true
     | .error _ => false)

/-- The diagnostic `main` leaves on the console for each outcome
(`None` on success — the success path prints the summary block
instead). -/
def reportedError : RunResult → Option String
  | .errSourceMissing =>
      some ("Error: Source directory '" ++ SOURCE_DIR ++ "' not found!")
  | .errManifestMissing =>
      some ("Error: manifest.json not found in '" ++ SOURCE_DIR ++ "'!")
  | .errPackaging e => some ("✗ Error creating package: " ++ e)
  | .success _ => none

/-- Handle and on-disk state after a run of `create_xpi`, for the
resource-safety claim: whether either `with`-scoped handle (the manifest
read handle, the zip writer) is still open, whether the output archive
file exists on disk, and whether it was finalised (the zip writer's
close, run by `with` on every exit path, writes the central directory,
leaving a well-formed archive rather than a corrupt one). -/
structure ResourceState where
  manifestHandleOpen : Bool
  zipHandleOpen : Bool
  archiveOnDisk : Bool
  archiveFinalized : Bool
deriving Repr, DecidableEq

/-- The zip-writing loop body of `create_xpi` with fallible reads:
`readable` tells which absolute paths `zipf.write` can read; the first
unreadable included file raises, aborting the loop with that error. -/
def addLoop (readable : String → Bool) : List String → Nat → Except String Nat
  | [], n => .ok n
  | rel :: rest, n =>
      if should_include (filePathOf rel) then
        if readable (filePathOf rel) then addLoop readable rest (n + 1)
        else .error ("cannot read " ++ filePathOf rel)
      else addLoop readable rest n

/-- `create_xpi` as an operational run with `with`-block semantics.
`with open(manifest_path) as f` closes the manifest handle on success
and on exception alike; if `json.load` raises, the zip file is never
opened and nothing is on disk.  `with zipfile.ZipFile(output_path, 'w')
as zipf` creates the archive file, and its scoped exit closes the writer
— finalising the archive — whether the walk loop finishes or raises. -/
def create_xpi_run (parse : Except String Manifest) (walk : List String)
    (readable : String → Bool) (now : String) :
    Except String PackageResult × ResourceState :=
  match parse with
  | .error e =>
      (.error e,
       { manifestHandleOpen := false, zipHandleOpen := false,
         archiveOnDisk := false, archiveFinalized := false })
  | .ok m =>
      match addLoop readable walk 0 with
      | .error e =>
          (.error e,
           { manifestHandleOpen := false, zipHandleOpen := false,
             archiveOnDisk := true, archiveFinalized := true })
      | .ok _ =>
          (.ok (create_xpi m walk now),
           { manifestHandleOpen := false, zipHandleOpen := false,
             archiveOnDisk := true, archiveFinalized := true })

/-! ## Characterisation of the string primitives -/

lemma listStartsWith_iff (hay pat : List Char) :
    listStartsWith hay pat = true ↔ ∃ r, hay = pat ++ r := by
  induction pat generalizing hay with
  | nil => simp [listStartsWith]
  | cons p ps ih =>
    cases hay with
    | nil => simp [listStartsWith]
    | cons h hs =>
      simp only [listStartsWith, Bool.and_eq_true, beq_iff_eq, ih,
        List.cons_append, List.cons.injEq]
      constructor
      · rintro ⟨rfl, r, rfl⟩
        exact ⟨r, rfl, rfl⟩
      · rintro ⟨r, rfl, rfl⟩
        exact ⟨rfl, r, rfl⟩

lemma listContains_iff (hay pat : List Char) :
    listContains hay pat = true ↔ ∃ l r, hay = l ++ pat ++ r := by
  induction hay with
  | nil =>
    simp only [listContains, listStartsWith_iff]
    constructor
    · rintro ⟨r, hr⟩
      exact ⟨[], r, by simp [hr]⟩
    · rintro ⟨l, r, hr⟩
      exact ⟨r, by
        rcases List.append_eq_nil.mp hr.symm with ⟨h1, h2⟩
        rcases List.append_eq_nil.mp h1 with ⟨h3, h4⟩
        simp [h2, h4]⟩
  | cons h hs ih =>
    simp only [listContains, Bool.or_eq_true, listStartsWith_iff, ih]
    constructor
    · rintro (⟨r, hr⟩ | ⟨l, r, hr⟩)
      · exact ⟨[], r, by simpa using hr⟩
      · exact ⟨h :: l, r, by simp [hr]⟩
    · rintro ⟨l, r, hr⟩
      cases l with
      | nil => exact Or.inl ⟨r, by simpa using hr⟩
      | cons a l =>
        simp only [List.cons_append] at hr
        injection hr with h1 h2
        exact Or.inr ⟨l, r, h2⟩

lemma listEndsWith_iff (hay pat : List Char) :
    listEndsWith hay pat = true ↔ ∃ l, hay = l ++ pat := by
  unfold listEndsWith
  rw [listStartsWith_iff]
  constructor
  · rintro ⟨r, hr⟩
    refine ⟨r.reverse, ?_⟩
    have h2 := congrArg List.reverse hr
    simpa [List.reverse_append] using h2
  · rintro ⟨l, rfl⟩
    exact ⟨l.reverse, by simp [List.reverse_append]⟩

/-! ## The spec-side contract of `should_include`

`MatchesExcludeSpec` and `ExcludedSpec` transcribe the specification's
words for the exclusion contract ("contains any exclude-pattern as a
substring, OR ends with the exclude-pattern text with any `*` characters
stripped"), to be compared with the code-side `should_include`. -/

/-- Spec wording, one pattern: the pattern occurs as a contiguous
substring of the path, or the path ends with the pattern with all `*`
removed. -/
def MatchesExcludeSpec (pat p : String) : Prop :=
  (∃ l r, p.data = l ++ pat.data ++ r) ∨ ∃ l, p.data = l ++ (stripStars pat).data

/-- Spec wording, whole list: some exclude pattern matches the path. -/
def ExcludedSpec (p : String) : Prop :=
  ∃ pat ∈ EXCLUDE_PATTERNS, MatchesExcludeSpec pat p

lemma patternHits_iff (pat p : String) :
    patternHits pat p = true ↔ MatchesExcludeSpec pat p := by
  unfold patternHits strContains strEndsWith MatchesExcludeSpec
  rw [Bool.or_eq_true, listContains_iff, listEndsWith_iff]

lemma any_patternHits_iff (p : String) :
    (EXCLUDE_PATTERNS.any fun pat => patternHits pat p) = true ↔ ExcludedSpec p := by
  simp only [List.any_eq_true, patternHits_iff]
  rfl

/-! ## Claim theorems -/

/-- C1: for every file path, `should_include` returns `false` iff some
exclude pattern occurs as a substring of the path or the path ends with
that pattern's text with all `*` characters removed; for every path
satisfying neither condition for any exclude pattern, it returns
`true`. -/
theorem spec_c1 (p : String) :
    (should_include p = false ↔ ExcludedSpec p) ∧
    (¬ ExcludedSpec p → should_include p = true) := by
  have h : should_include p = false ↔ ExcludedSpec p := by
    rw [← any_patternHits_iff]
    unfold should_include shouldIncludeCore
    cases EXCLUDE_PATTERNS.any fun pattern => patternHits pattern p <;> simp
  refine ⟨h, fun hn => ?_⟩
  cases hb : should_include p with
  | true => rfl
  | false => exact absurd (h.mp hb) hn

/-- Witness for C1 at the concrete paths
`bookmark-folder-organizer/popup.test.js` (excluded via the stripped
suffix of `*.test.js`) and `bookmark-folder-organizer/popup.js`
(matching no exclude pattern, hence included). -/
theorem spec_c1_witness :
    should_include "bookmark-folder-organizer/popup.test.js" = false ∧
    should_include "bookmark-folder-organizer/popup.js" = true := by
  constructor
  · exact (spec_c1 _).1.mpr
      ⟨"*.test.js", by decide,
       Or.inr ⟨"bookmark-folder-organizer/popup".data, by decide⟩⟩
  · refine (spec_c1 _).2 fun hEx => ?_
    have h1 : should_include "bookmark-folder-organizer/popup.js" = false :=
      (spec_c1 _).1.mpr hEx
    exact absurd h1 (by decide)

/-- C2: on the concrete source tree containing `manifest.json` (version
`2.1.0`), `popup.js`, `popup.test.js` and `.DS_Store`, `create_xpi`
names the archive `bookmark-folder-organizer-2.1.0.xpi`, packages
exactly `manifest.json` and `popup.js`, excludes `popup.test.js` and
`.DS_Store`, and reports an included-file count of 2. -/
theorem spec_c2 :
    (create_xpi [("version", "2.1.0")]
        ["manifest.json", "popup.js", "popup.test.js", ".DS_Store"]
        "20250101_120000").outputName = "bookmark-folder-organizer-2.1.0.xpi" ∧
    (create_xpi [("version", "2.1.0")]
        ["manifest.json", "popup.js", "popup.test.js", ".DS_Store"]
        "20250101_120000").entries = ["manifest.json", "popup.js"] ∧
    (create_xpi [("version", "2.1.0")]
        ["manifest.json", "popup.js", "popup.test.js", ".DS_Store"]
        "20250101_120000").fileCount = 2 ∧
    "popup.test.js" ∉ (create_xpi [("version", "2.1.0")]
        ["manifest.json", "popup.js", "popup.test.js", ".DS_Store"]
        "20250101_120000").entries ∧
    ".DS_Store" ∉ (create_xpi [("version", "2.1.0")]
        ["manifest.json", "popup.js", "popup.test.js", ".DS_Store"]
        "20250101_120000").entries := by
  refine ⟨?_, ?_, ?_, ?_, ?_⟩ <;> decide

/-- C3: whenever the parsed manifest has no `version` field,
`create_xpi` builds the output filename with the default version
`1.0.0`. -/
theorem spec_c3 (m : Manifest) (walk : List String) (now : String)
    (h : m.lookup "version" = none) :
    (create_xpi m walk now).outputName = "bookmark-folder-organizer-1.0.0.xpi" := by
  have hv : manifestVersion m = "1.0.0" := by
    unfold manifestVersion
    rw [h]
  simp only [create_xpi, output_filename, hv]
  decide

/-- Witness for C3: the empty manifest has no `version` field and
yields the default filename. -/
theorem spec_c3_witness :
    ([] : Manifest).lookup "version" = none ∧
    (create_xpi [] ["popup.js"] "20250101_120000").outputName =
      "bookmark-folder-organizer-1.0.0.xpi" :=
  ⟨rfl, spec_c3 [] ["popup.js"] "20250101_120000" rfl⟩

/-- C4: if the source directory is missing, or it exists but the
manifest file is missing, `main` stops on the corresponding error, an
error message is reported, and the output archive is never created. -/
theorem spec_c4 (w : World)
    (h : w.sourceDirExists = false ∨ w.manifestFileExists = false) :
    (main w = RunResult.errSourceMissing ∨ main w = RunResult.errManifestMissing) ∧
    archiveCreated w = false ∧ (reportedError (main w)).isSome = true := by
  cases hsd : w.sourceDirExists with
  | false =>
    refine ⟨Or.inl ?_, ?_, ?_⟩
    · simp [main, hsd]
    · simp [archiveCreated, hsd]
    · simp [main, hsd, reportedError]
  | true =>
    have hm : w.manifestFileExists = false := by
      rcases h with h | h
      · rw [hsd] at h
        exact absurd h (by decide)
      · exact h
    refine ⟨Or.inr ?_, ?_, ?_⟩
    · simp [main, hsd, hm]
    · simp [archiveCreated, hm]
    · simp [main, hsd, hm, reportedError]

/-- Witness for C4: a world whose source directory is missing. -/
theorem spec_c4_witness :
    (main ⟨false, true, Except.ok [], [], ""⟩ = RunResult.errSourceMissing ∨
      main ⟨false, true, Except.ok [], [], ""⟩ = RunResult.errManifestMissing) ∧
    archiveCreated ⟨false, true, Except.ok [], [], ""⟩ = false ∧
    (reportedError (main ⟨false, true, Except.ok [], [], ""⟩)).isSome = true :=
  spec_c4 ⟨false, true, Except.ok [], [], ""⟩ (Or.inl rfl)

/-- C5: when the manifest file exists but parsing fails, the default
version is never applied: `main` ends in the caught generic packaging
failure carrying the parse error, the diagnostic containing the
underlying error is printed, no archive is written, and no success
result (hence no filename at all) is produced. -/
theorem spec_c5 (w : World) (e : String)
    (hs : w.sourceDirExists = true) (hm : w.manifestFileExists = true)
    (hp : w.manifestParse = Except.error e) :
    main w = RunResult.errPackaging e ∧
    archiveCreated w = false ∧
    reportedError (main w) = some ("✗ Error creating package: " ++ e) ∧
    ∀ r : PackageResult, main w ≠ RunResult.success r := by
  have hmain : main w = RunResult.errPackaging e := by
    simp [main, hs, hm, hp]
  refine ⟨hmain, ?_, ?_, ?_⟩
  · simp [archiveCreated, hp]
  · rw [hmain]
    rfl
  · intro r
    rw [hmain]
    exact fun hcontra => RunResult.noConfusion hcontra

/-- Witness for C5: a world with an unparsable manifest. -/
theorem spec_c5_witness :
    main ⟨true, true, Except.error "Expecting value", [], ""⟩ =
      RunResult.errPackaging "Expecting value" ∧
    archiveCreated ⟨true, true, Except.error "Expecting value", [], ""⟩ = false :=
  ⟨(spec_c5 ⟨true, true, Except.error "Expecting value", [], ""⟩
      "Expecting value" rfl rfl rfl).1,
   (spec_c5 ⟨true, true, Except.error "Expecting value", [], ""⟩
      "Expecting value" rfl rfl rfl).2.1⟩

/-- C6: the output archive name is exactly
`EXTENSION_NAME ++ "-" ++ version ++ ".xpi"`; the computed timestamp is
never incorporated, so runs at different times with the same manifest
target the same filename. -/
theorem spec_c6 (m : Manifest) (walk : List String) (t1 t2 : String) :
    (create_xpi m walk t1).outputName =
      EXTENSION_NAME ++ "-" ++ manifestVersion m ++ ".xpi" ∧
    (create_xpi m walk t1).outputName = (create_xpi m walk t2).outputName :=
  ⟨rfl, rfl⟩

/-- C7: on a fixed source tree and manifest, two runs of the packaging
operation — even at different timestamps — produce identical
included-entry lists (hence identical sets and entry names) and
identical reported counts: inclusion and entry naming are deterministic
functions of the input tree. -/
theorem spec_c7 (m : Manifest) (walk : List String) (t1 t2 : String) :
    (create_xpi m walk t1).entries = (create_xpi m walk t2).entries ∧
    (create_xpi m walk t1).fileCount = (create_xpi m walk t2).fileCount :=
  ⟨rfl, rfl⟩

/-- C8: on every run of `create_xpi` — including runs aborted by a
manifest parse error or an unreadable source file mid-walk — both
`with`-scoped handles end closed, and the output archive is finalised
(central directory written, so neither corrupt nor locked) exactly when
it is on disk at all. -/
theorem spec_c8 (parse : Except String Manifest) (walk : List String)
    (readable : String → Bool) (now : String) :
    (create_xpi_run parse walk readable now).2.manifestHandleOpen = false ∧
    (create_xpi_run parse walk readable now).2.zipHandleOpen = false ∧
    (create_xpi_run parse walk readable now).2.archiveFinalized =
      (create_xpi_run parse walk readable now).2.archiveOnDisk := by
  cases parse with
  | error e => exact ⟨rfl, rfl, rfl⟩
  | ok m =>
    cases h : addLoop readable walk 0 with
    | error e => simp [create_xpi_run, h]
    | ok n => simp [create_xpi_run, h]

/-- C9: the inclusion decision consults only the exclude list —
`should_include` is definitionally the exclude-list core — so the file
`notes.txt`, which matches no include pattern (neither as a substring
nor as a star-stripped suffix), is still packaged because it matches no
exclude pattern. -/
theorem spec_c9 :
    (INCLUDE_PATTERNS.all fun pat => !(patternHits pat (filePathOf "notes.txt"))) = true ∧
    should_include (filePathOf "notes.txt") = true ∧
    packagedEntries ["notes.txt"] = ["notes.txt"] ∧
    ∀ p : String, should_include p = shouldIncludeCore EXCLUDE_PATTERNS p :=
  ⟨by decide, by decide, by decide, fun _ => rfl⟩

/-- C10: the manifest's path under the source directory passes
`should_include`, so in every successful run whose walk contains the
manifest (guaranteed by `main`'s existence check), the produced archive
contains the `manifest.json` entry and the reported count is at
least 1. -/
theorem spec_c10 (w : World) (m : Manifest)
    (hs : w.sourceDirExists = true) (hm : w.manifestFileExists = true)
    (hp : w.manifestParse = Except.ok m) (hw : "manifest.json" ∈ w.walk) :
    should_include (filePathOf "manifest.json") = true ∧
    ∃ r : PackageResult, main w = RunResult.success r ∧
      "manifest.json" ∈ r.entries ∧ 1 ≤ r.fileCount := by
  have hinc : should_include (filePathOf "manifest.json") = true := by decide
  have hmem : "manifest.json" ∈ packagedEntries w.walk := by
    rw [packagedEntries, List.mem_filter]
    exact ⟨hw, hinc⟩
  refine ⟨hinc, create_xpi m w.walk w.now, ?_, ?_, ?_⟩
  · simp [main, hs, hm, hp]
  · simpa [create_xpi] using hmem
  · have hpos := List.length_pos.mpr (List.ne_nil_of_mem hmem)
    simpa [create_xpi] using hpos

/-- Witness for C10: a healthy world whose walk contains
`manifest.json`. -/
theorem spec_c10_witness :
    should_include (filePathOf "manifest.json") = true ∧
    ∃ r : PackageResult,
      main ⟨true, true, Except.ok [("version", "2.1.0")],
        ["manifest.json", "popup.js"], "20250101_120000"⟩ = RunResult.success r ∧
      "manifest.json" ∈ r.entries ∧ 1 ≤ r.fileCount :=
  spec_c10
    ⟨true, true, Except.ok [("version", "2.1.0")],
      ["manifest.json", "popup.js"], "20250101_120000"⟩
    [("version", "2.1.0")] rfl rfl rfl (by decide)

end PackageExtension
